import Mathlib

/-!
# Nightscout connector back end: a shallow embedding

The Go packages of the repository are embedded package by package:

* `Strings`, `Strconv`: the two standard-library helpers whose exact behaviour
  the handlers rely on (`strings.Split`, `strings.Contains`, `strconv.Atoi`);
* `URL`: how a receiver reads the query parameters of a URL (RFC 3986), used
  to state where the API token ends up;
* `Models`, `Constants`: `internal/models`, `internal/constants`;
* `Auth`: `internal/auth/auth.go` (both middlewares);
* `Firebase`: `internal/firebase/client.go` over an explicit document store;
* `Nightscout`: `internal/nightscout/client.go`;
* `Api`: `internal/api/handlers.go` and `internal/api/routes.go`.

Go strings are Lean `String`s, Go `int` is `Int` (range-checked where the
source range-checks), a Go `error` is `Option String` / `Except String _`.
Everything outside the repository (identity provider, JWT library, JSON
decoder, `time` formatting, the HTTP transport, Firestore availability) is a
field of `Env`, so every theorem quantifies over all behaviours of it.
-/

set_option autoImplicit false

/-! ## Standard-library helpers -/

namespace Strings

/-- Pieces of a character list between occurrences of `sep`
(`n` occurrences give `n + 1` pieces, empty pieces included). -/
def splitChars (sep : Char) : List Char → List (List Char)
  | [] => [[]]
  | c :: cs =>
    if c = sep then [] :: splitChars sep cs
    else
      match splitChars sep cs with
      | [] => [[c]]
      | p :: ps => (c :: p) :: ps

/-- Go `strings.Split(s, sep)` for a one-character separator (both call sites
pass `" "`). -/
def Split (s : String) (sep : Char) : List String :=
  (splitChars sep s.data).map String.mk

/-- Go `strings.Contains(s, substr)` for a one-character `substr` (the call
site passes `"?"`). -/
def Contains (s : String) (c : Char) : Bool :=
  s.data.contains c

end Strings

/-! ## Reading a URL -/

namespace URL

end URL

namespace Strconv

/-- The two failure kinds of `strconv.Atoi` (`ErrSyntax`, `ErrRange`). -/
inductive NumError
  | syntaxErr
  | rangeErr
  deriving DecidableEq, Repr

/-- ASCII decimal digit test, as in the `ch -= 48; ch > 9` loop of `Atoi`. -/
def isDigit (c : Char) : Bool :=
  decide (48 ≤ c.toNat ∧ c.toNat ≤ 57)

/-- Value of a run of decimal digits, most significant first. -/
def digitsValue (ds : List Char) : Nat :=
  ds.foldl (fun acc d => acc * 10 + (d.toNat - 48)) 0

/-- Go `strconv.Atoi` on a 64-bit platform: an optional sign, then at least
one decimal digit and nothing else; the value must fit `int64`. -/
def Atoi (s : String) : Except NumError Int :=
  match s.data with
  | [] => .error .syntaxErr
  | c :: rest =>
    let neg := decide (c = '-')
    let ds := if c = '-' ∨ c = '+' then rest else c :: rest
    if ds = [] then .error .syntaxErr
    else if !ds.all isDigit then .error .syntaxErr
    else
      let n := digitsValue ds
      if neg then
        if n > 2 ^ 63 then .error .rangeErr else .ok (-(n : Int))
      else
        if n ≥ 2 ^ 63 then .error .rangeErr else .ok (n : Int)

end Strconv

/-! ## `time.Time` -/

/-- Go `time.Time`: seconds and nanoseconds since January 1, year 1, 00:00:00
UTC, plus the zone offset the value is displayed in. -/
structure Time where
  sec : Int
  nsec : Nat
  zoneOffset : Int
  deriving DecidableEq, Repr

namespace Time

/-- The zero value `var t time.Time`. -/
def zero : Time := ⟨0, 0, 0⟩

/-- Go `Time.IsZero`: the instant is January 1, year 1, 00:00:00 UTC. -/
def IsZero (t : Time) : Bool :=
  decide (t.sec = 0 ∧ t.nsec = 0)

end Time

/-! ## `internal/models` and `internal/constants` -/

namespace Models

/-- One glucose reading as decoded from the host; `float64` fields are kept as
their bit patterns since no arithmetic is done on them. -/
structure GlucoseEntry where
  ID : String
  Device : String
  DateString : String
  Date : Int
  SGV : Int
  Delta : Nat
  Direction : String
  Type_ : String
  Filtered : Nat
  Unfiltered : Nat
  RSSI : Int
  Noise : Int
  SysTime : String
  deriving DecidableEq, Repr

end Models

namespace Constants

def MsgSuccess : String := "Success"
def NightscoutAPIStatusEndpoint : String := "/api/v1/status.json"
def NightscoutAPIEntriesEndpoint : String := "/api/v1/entries.json"
def DefaultEntriesCount : Int := 24
def FieldNightscoutURL : String := "nightscoutUrl"
def FieldNightscoutAPIKey : String := "nightscoutApiKey"
def FieldConnected : String := "connected"
def FieldLastUpdated : String := "lastUpdated"
def ParamUserID : String := "userId"
def ParamCount : String := "count"
def ParamFrom : String := "from"
def ParamTo : String := "to"
def ErrMsgUserIDRequired : String := "userId is required"
def ErrMsgConnectionFailed : String := "Failed to connect to Nightscout"
def ErrMsgSaveConnectionFailed : String := "Failed to save connection"
def ErrMsgGetConnectionFailed : String := "Failed to get connection details"
def ErrMsgFetchEntriesFailed : String := "Failed to fetch entries"

end Constants

/-! ## HTTP requests, responses and the gin context -/

/-- A JSON value occurring in a response body. -/
inductive JVal
  | str (s : String)
  | num (n : Int)
  | entries (es : List Models.GlucoseEntry)
  deriving DecidableEq, Repr

/-- An HTTP response: status code and the `gin.H` object written by `c.JSON`
(empty when nothing was written). -/
structure Response where
  status : Nat
  body : List (String × JVal)
  deriving DecidableEq, Repr

/-- An inbound request: `authorization` is `c.GetHeader("Authorization")`
(empty when the header is absent), `query` the URL query pairs, `body` the raw
request body. -/
structure Request where
  method : String
  path : String
  authorization : String
  query : List (String × String)
  body : String
  deriving DecidableEq, Repr

/-- The gin context: the request plus the keys set with `c.Set`. -/
structure Context where
  request : Request
  keys : List (String × String)
  deriving DecidableEq, Repr

namespace Context

/-- The gin call `c.Query(key)`: the first value of the key, or `""`. -/
def Query (c : Context) (key : String) : String :=
  (c.request.query.lookup key).getD ""

/-- The gin call `c.GetHeader("Authorization")`. -/
def GetHeader (c : Context) : String :=
  c.request.authorization

/-- The gin call `c.Set(key, value)`. -/
def Set (c : Context) (key value : String) : Context :=
  { c with keys := (key, value) :: c.keys }

/-- The gin call `c.Get(key)`: the most recently set value of the key. -/
def Get (c : Context) (key : String) : Option String :=
  c.keys.lookup key

/-- The same context for the request sent without the query parameter `key`. -/
def withoutQuery (c : Context) (key : String) : Context :=
  { c with request := { c.request with query := c.request.query.filter (fun kv => kv.1 != key) } }

end Context

/-- What a middleware does with the chain: `abort` is
`c.AbortWithStatusJSON(..); return`, `next` is `c.Next()` on the context. -/
inductive Outcome
  | abort (r : Response)
  | next (c : Context)
  deriving DecidableEq, Repr

/-! ## `internal/auth` -/

namespace Auth

/-- A verified identity-provider token (`auth.Token`): subject and claims. -/
structure Token where
  UID : String
  Claims : List (String × String)
  deriving DecidableEq, Repr

/-- The JWT claims of the self-issued scheme. -/
structure Claims where
  UserID : String
  Role : String
  deriving DecidableEq, Repr

/-- Signing method announced by a JWT header. -/
inductive SigningMethod
  | HMAC (alg : String)
  | other (alg : String)
  deriving DecidableEq, Repr

/-- Result of `jwt.ParseWithClaims` when it returns no error. -/
structure ParsedToken where
  Valid : Bool
  claims : Claims
  deriving DecidableEq, Repr

structure Config where
  JWTSecret : String
  deriving DecidableEq, Repr

/-- The auth service. `VerifyIDToken` is the identity provider's verification
call and `ParseWithClaims` the JWT library (it receives the key function). -/
structure Service where
  config : Config
  VerifyIDToken : String → Except String Token
  ParseWithClaims :
    String → (SigningMethod → Except String String) → Except String ParsedToken

/-- Key function handed to the JWT library in `VerifyToken`. -/
def keyFunc (s : Service) : SigningMethod → Except String String
  | .HMAC _ => .ok s.config.JWTSecret
  | .other alg => .error ("unexpected signing method: " ++ alg)

def VerifyToken (s : Service) (tokenString : String) : Except String Claims :=
  match s.ParseWithClaims tokenString (keyFunc s) with
  | .error e => .error e
  | .ok token =>
    if !token.Valid then .error "invalid token" else .ok token.claims

def VerifyFirebaseToken (s : Service) (idToken : String) : Except String Token :=
  match s.VerifyIDToken idToken with
  | .error e => .error ("invalid Firebase token: " ++ e)
  | .ok token => .ok token

def errHeaderRequired : Response :=
  ⟨401, [("error", .str "Authorization header is required")]⟩

def errHeaderFormat : Response :=
  ⟨401, [("error", .str "Authorization header format must be Bearer \x7btoken\x7d")]⟩

def AuthMiddleware (s : Service) (c : Context) : Outcome :=
  let authHeader := c.GetHeader
  if authHeader = "" then .abort errHeaderRequired
  else
    let parts := Strings.Split authHeader ' '
    if parts.length ≠ 2 ∨ parts.getD 0 "" ≠ "Bearer" then .abort errHeaderFormat
    else
      let tokenString := parts.getD 1 ""
      match VerifyToken s tokenString with
      | .error _ => .abort ⟨401, [("error", .str "Invalid or expired token")]⟩
      | .ok claims => .next ((c.Set "userID" claims.UserID).Set "userRole" claims.Role)

def FirebaseAuthMiddleware (s : Service) (c : Context) : Outcome :=
  let authHeader := c.GetHeader
  if authHeader = "" then .abort errHeaderRequired
  else
    let parts := Strings.Split authHeader ' '
    if parts.length ≠ 2 ∨ parts.getD 0 "" ≠ "Bearer" then .abort errHeaderFormat
    else
      let tokenString := parts.getD 1 ""
      match VerifyFirebaseToken s tokenString with
      | .error _ => .abort ⟨401, [("error", .str "Invalid or expired Firebase token")]⟩
      | .ok token =>
        let c1 := c.Set "userID" token.UID
        match token.Claims.lookup "email" with
        | some email => .next (c1.Set "userEmail" email)
        | none => .next c1

def GetUserID (c : Context) : String :=
  match c.Get "userID" with
  | none => ""
  | some userID => userID

end Auth

/-! ## The document store, the outside world and the observable state -/

namespace Firestore

/-- A Firestore field value; `other` stands for every value that is neither a
string, a boolean nor a timestamp. -/
inductive Value
  | str (s : String)
  | bool (b : Bool)
  | timestamp (t : Time)
  | other (n : Nat)
  deriving DecidableEq, Repr

/-- A document: its fields. -/
abbrev Doc := List (String × Value)

/-- The `userConnections` collection: one document per document id. -/
abbrev Store := List (String × Doc)

/-- Field merge of `Set(ctx, data, firestore.MergeAll)`: the fields of `data`
replace the stored ones, every other stored field is kept. -/
def merge (data old : Doc) : Doc :=
  data ++ old.filter (fun kv => !(data.any (fun d => d.1 == kv.1)))

/-- Document lookup, `none` for a document that does not exist. -/
def get (s : Store) (id : String) : Option Doc :=
  s.lookup id

/-- Removal of a document; removing a missing document changes nothing. -/
def delete (s : Store) (id : String) : Store :=
  s.filter (fun kv => kv.1 != id)

/-- Create-or-merge write of a document. -/
def setMerge (s : Store) (id : String) (data : Doc) : Store :=
  (id, merge data ((get s id).getD [])) :: delete s id

end Firestore

/-- The three store operations of the adapter. -/
inductive StoreOp
  | get
  | set
  | delete
  deriving DecidableEq, Repr

/-- A response of the glucose host. -/
structure HttpResponse where
  StatusCode : Nat
  Body : String
  deriving DecidableEq, Repr

/-- Fields of the JSON body of the connect request. -/
structure ConnectRequest where
  UserID : String
  NightscoutURL : String
  APIKey : String
  deriving DecidableEq, Repr

/-- The handler functions registered by `SetupRoutes`. -/
inductive HandlerFunc
  | HealthCheck
  | ConnectNightscout
  | VerifyNightscout
  | GetNightscoutEntries
  | DisconnectNightscout
  deriving DecidableEq, Repr

/-- Observable events: a handler being entered, a call reaching the credential
store, a request sent to the glucose host. -/
inductive Event
  | handler (h : HandlerFunc)
  | firestoreGet (userID : String)
  | firestoreSet (userID : String) (data : Firestore.Doc)
  | firestoreDelete (userID : String)
  | httpDo (method url : String)
  deriving DecidableEq, Repr

/-- The state a request runs against: the stored documents and the events so
far, oldest first. -/
structure State where
  store : Firestore.Store
  trace : List Event
  deriving DecidableEq, Repr

/-- Appends an event to the trace. -/
def State.record (st : State) (e : Event) : State :=
  { st with trace := st.trace ++ [e] }

/-- Everything a request depends on that is not code of the repository:
library functions and the behaviour of the remote services during the request.

* `jsonUnmarshal`, `fieldError`, `validURL`: JSON binding of the connect body,
  the validator message for a field and tag, the validator `url` rule;
* `timeParse`, `timeFormat`: `time.Parse(time.RFC3339, ·)` and
  `Time.Format(time.RFC3339)`; `now` is `time.Now()`;
* `jsonDecode`: decoding of a host body into entries;
* `newApp`: the error of `firebase.NewApp`, if any;
* `firestoreClient op`, `firestoreOp op`: the error of `app.Firestore(ctx)`
  before `op`, and of `op` itself for a reason other than a missing document;
* `serverTimestamp`: the store clock used for `firestore.ServerTimestamp`;
* `newRequest`, `httpDo`: the error of `http.NewRequest`, if any, and the
  outcome of `client.Do`. -/
structure Env where
  jsonUnmarshal : String → Except String ConnectRequest
  fieldError : String → String → String
  validURL : String → Bool
  timeParse : String → Except String Time
  timeFormat : Time → String
  now : Time
  jsonDecode : String → Except String (List Models.GlucoseEntry)
  newApp : Option String
  firestoreClient : StoreOp → Option String
  firestoreOp : StoreOp → Option String
  serverTimestamp : Time
  newRequest : String → String → Option String
  httpDo : String → String → Except String HttpResponse

/-! ## `internal/firebase` -/

namespace Firebase

open Constants

/-- Go `firebase.NewClient`: an `error` result stands for the `panic` on a
failed `firebase.NewApp`. -/
def NewClient (env : Env) : Except String Unit :=
  match env.newApp with
  | some e => .error ("Failed to initialize Firebase app: " ++ e)
  | none => .ok ()

def SaveNightscoutConnection (env : Env) (st : State) (userID url apiKey : String) :
    Option String × State :=
  match env.firestoreClient .set with
  | some e => (some e, st)
  | none =>
    let data : Firestore.Doc :=
      [ (FieldNightscoutURL, .str url),
        (FieldNightscoutAPIKey, .str apiKey),
        (FieldConnected, .bool true),
        (FieldLastUpdated, .timestamp env.serverTimestamp) ]
    let st1 := st.record (.firestoreSet userID data)
    match env.firestoreOp .set with
    | some e => (some e, st1)
    | none => (none, { st1 with store := Firestore.setMerge st1.store userID data })

/-- The type assertion `data[field].(string)` with the `ok` flag dropped. -/
def stringField (data : Firestore.Doc) (field : String) : String :=
  match data.lookup field with
  | some (.str s) => s
  | _ => ""

def GetNightscoutConnection (env : Env) (st : State) (userID : String) :
    Except String (String × String) × State :=
  match env.firestoreClient .get with
  | some e => (.error e, st)
  | none =>
    let st1 := st.record (.firestoreGet userID)
    match env.firestoreOp .get with
    | some e => (.error e, st1)
    | none =>
      match Firestore.get st1.store userID with
      | none => (.error "NotFound", st1)
      | some data =>
        (.ok (stringField data FieldNightscoutURL, stringField data FieldNightscoutAPIKey), st1)

def DeleteNightscoutConnection (env : Env) (st : State) (userID : String) :
    Option String × State :=
  match env.firestoreClient .delete with
  | some e => (some e, st)
  | none =>
    let st1 := st.record (.firestoreDelete userID)
    match env.firestoreOp .delete with
    | some e => (some e, st1)
    | none => (none, { st1 with store := Firestore.delete st1.store userID })

end Firebase

/-! ## `internal/nightscout` -/

namespace Nightscout

open Constants

structure Client where
  BaseURL : String
  APIKey : String
  deriving DecidableEq, Repr

def NewClient (baseURL apiKey : String) : Client :=
  ⟨baseURL, apiKey⟩

/-- The last two statements of `makeRequest`: `http.NewRequest(method, url, nil)`
and, when that succeeds, `c.client.Do(req)`, which sends the request. -/
def doRequest (env : Env) (st : State) (method url : String) :
    Except String HttpResponse × State :=
  match env.newRequest method url with
  | some e => (.error e, st)
  | none => (env.httpDo method url, st.record (.httpDo method url))

def makeRequest (env : Env) (c : Client) (st : State) (method endpoint : String) :
    Except String HttpResponse × State :=
  let url := c.BaseURL ++ endpoint
  let url :=
    if c.APIKey ≠ "" then
      if Strings.Contains endpoint '?' then url ++ "&token=" ++ c.APIKey
      else url ++ "?token=" ++ c.APIKey
    else url
  doRequest env st method url

def Verify (env : Env) (c : Client) (st : State) : Option String × State :=
  match makeRequest env c st "GET" NightscoutAPIStatusEndpoint with
  | (.error e, st1) => (some ("failed to verify Nightscout connection: " ++ e), st1)
  | (.ok resp, st1) =>
    if resp.StatusCode ≠ 200 then
      (some ("invalid Nightscout credentials or URL: status " ++ toString resp.StatusCode), st1)
    else (none, st1)

def GetEntries (env : Env) (c : Client) (st : State) (count : Int) (dateFrom dateTo : Time) :
    Except String (List Models.GlucoseEntry) × State :=
  let endpoint := NightscoutAPIEntriesEndpoint ++ "?count=" ++ toString count
  let endpoint :=
    if !dateFrom.IsZero then endpoint ++ "&find[dateString][$gte]=" ++ env.timeFormat dateFrom
    else endpoint
  let endpoint :=
    if !dateTo.IsZero then endpoint ++ "&find[dateString][$lte]=" ++ env.timeFormat dateTo
    else endpoint
  match makeRequest env c st "GET" endpoint with
  | (.error e, st1) => (.error ("failed to fetch entries: " ++ e), st1)
  | (.ok resp, st1) =>
    match env.jsonDecode resp.Body with
    | .error e => (.error ("failed to parse entries: " ++ e), st1)
    | .ok entries => (.ok entries, st1)

end Nightscout

/-! ## `internal/api` -/

namespace Api

open Constants

/-- Response written by the recovery middleware of `gin.Default()` when a
handler panics. -/
def recovered : Response := ⟨500, []⟩

/-- The gin call `c.ShouldBindJSON(&request)` for the connect body, with the
binding tags `required` (UserID), `required,url` (NightscoutURL). -/
def ShouldBindJSON (env : Env) (c : Context) : Except String ConnectRequest :=
  match env.jsonUnmarshal c.request.body with
  | .error e => .error e
  | .ok request =>
    let errs : List String :=
      (if request.UserID = "" then [env.fieldError "UserID" "required"] else []) ++
      (if request.NightscoutURL = "" then [env.fieldError "NightscoutURL" "required"]
       else if !env.validURL request.NightscoutURL then [env.fieldError "NightscoutURL" "url"]
       else [])
    if errs = [] then .ok request else .error (String.intercalate "\n" errs)

def HealthCheck (env : Env) (_c : Context) (st : State) : Response × State :=
  (⟨200, [("status", .str MsgSuccess), ("time", .str (env.timeFormat env.now))]⟩, st)

def ConnectNightscout (env : Env) (c : Context) (st : State) : Response × State :=
  match ShouldBindJSON env c with
  | .error e => (⟨400, [("error", .str e)]⟩, st)
  | .ok request =>
    let client := Nightscout.NewClient request.NightscoutURL request.APIKey
    match Nightscout.Verify env client st with
    | (some e, st1) =>
      (⟨400, [("error", .str ErrMsgConnectionFailed), ("details", .str e)]⟩, st1)
    | (none, st1) =>
      match Firebase.NewClient env with
      | .error _ => (recovered, st1)
      | .ok _ =>
        match Firebase.SaveNightscoutConnection env st1
            request.UserID request.NightscoutURL request.APIKey with
        | (some e, st2) =>
          (⟨500, [("error", .str ErrMsgSaveConnectionFailed), ("details", .str e)]⟩, st2)
        | (none, st2) =>
          (⟨200, [("message", .str MsgSuccess), ("url", .str request.NightscoutURL)]⟩, st2)

def GetNightscoutEntries (env : Env) (c : Context) (st : State) : Response × State :=
  let userID := c.Query "userId"
  if userID = "" then (⟨400, [("error", .str ErrMsgUserIDRequired)]⟩, st)
  else
    let count : Int :=
      let countParam := c.Query ParamCount
      if countParam ≠ "" then
        match Strconv.Atoi countParam with
        | .ok n => if n > 0 then n else DefaultEntriesCount
        | .error _ => DefaultEntriesCount
      else DefaultEntriesCount
    match Firebase.NewClient env with
    | .error _ => (recovered, st)
    | .ok _ =>
      match Firebase.GetNightscoutConnection env st userID with
      | (.error _, st1) => (⟨500, [("error", .str ErrMsgGetConnectionFailed)]⟩, st1)
      | (.ok (url, apiKey), st1) =>
        let client := Nightscout.NewClient url apiKey
        let dateFrom : Time :=
          let v := c.Query ParamFrom
          if v ≠ "" then
            match env.timeParse v with
            | .ok t => t
            | .error _ => Time.zero
          else Time.zero
        let dateTo : Time :=
          let v := c.Query ParamTo
          if v ≠ "" then
            match env.timeParse v with
            | .ok t => t
            | .error _ => Time.zero
          else Time.zero
        match Nightscout.GetEntries env client st1 count dateFrom dateTo with
        | (.error e, st2) =>
          (⟨500, [("error", .str ErrMsgFetchEntriesFailed), ("details", .str e)]⟩, st2)
        | (.ok entries, st2) =>
          (⟨200, [("entries", .entries entries), ("count", .num entries.length)]⟩, st2)

def VerifyNightscout (env : Env) (c : Context) (st : State) : Response × State :=
  let userID := c.Query "userId"
  if userID = "" then (⟨400, [("error", .str "userId is required")]⟩, st)
  else
    match Firebase.NewClient env with
    | .error _ => (recovered, st)
    | .ok _ =>
      match Firebase.GetNightscoutConnection env st userID with
      | (.error _, st1) => (⟨500, [("error", .str "Failed to get connection details")]⟩, st1)
      | (.ok (url, apiKey), st1) =>
        let client := Nightscout.NewClient url apiKey
        match Nightscout.Verify env client st1 with
        | (some e, st2) =>
          (⟨500, [("error", .str "Failed to connect to Nightscout"), ("details", .str e)]⟩, st2)
        | (none, st2) =>
          (⟨200, [("message", .str "Successfully connected to Nightscout")]⟩, st2)

def DisconnectNightscout (env : Env) (c : Context) (st : State) : Response × State :=
  let userID := c.Query "userId"
  if userID = "" then (⟨400, [("error", .str "userId is required")]⟩, st)
  else
    match Firebase.NewClient env with
    | .error _ => (recovered, st)
    | .ok _ =>
      match Firebase.GetNightscoutConnection env st userID with
      | (.error _, st1) => (⟨500, [("error", .str "Failed to get connection details")]⟩, st1)
      | (.ok _, st1) =>
        match Firebase.DeleteNightscoutConnection env st1 userID with
        | (some _, st2) =>
          (⟨500, [("error", .str "Failed to disconnect from Nightscout")]⟩, st2)
        | (none, st2) =>
          (⟨200, [("message", .str "Successfully disconnected from Nightscout")]⟩, st2)

/-- The count of list-entries in the words of the specification: `n` when the
`count` parameter is a decimal integer `n > 0`, and 24 otherwise. -/
def countSpec (countParam : String) : Int :=
  match Strconv.Atoi countParam with
  | .ok n => if 0 < n then n else 24
  | .error _ => 24

/-- A date bound of list-entries in the words of the specification: the parsed
time of a parameter that is present and valid RFC 3339, otherwise no bound
(the zero time). -/
def dateSpec (env : Env) (param : String) : Time :=
  if param = "" then Time.zero
  else
    match env.timeParse param with
    | .ok t => t
    | .error _ => Time.zero

/-- One registered route; `auth` tells whether it sits in the group that uses
`FirebaseAuthMiddleware`. -/
structure Route where
  method : String
  path : String
  auth : Bool
  handler : HandlerFunc
  deriving DecidableEq, Repr

def SetupRoutes : List Route :=
  [ ⟨"GET", "/api/health", false, .HealthCheck⟩,
    ⟨"POST", "/api/nightscout/connect", true, .ConnectNightscout⟩,
    ⟨"GET", "/api/nightscout/verify", true, .VerifyNightscout⟩,
    ⟨"GET", "/api/nightscout/entries", true, .GetNightscoutEntries⟩,
    ⟨"DELETE", "/api/nightscout/disconnect", true, .DisconnectNightscout⟩ ]

/-- The Go function behind a registered handler. -/
def call (env : Env) : HandlerFunc → Context → State → Response × State
  | .HealthCheck => HealthCheck env
  | .ConnectNightscout => ConnectNightscout env
  | .VerifyNightscout => VerifyNightscout env
  | .GetNightscoutEntries => GetNightscoutEntries env
  | .DisconnectNightscout => DisconnectNightscout env

/-- The router built by `SetupRoutes`, serving one request: an unknown route
answers 404; a route of the protected group runs the middleware first and the
handler only on `c.Next()`. Entering a handler is recorded in the trace. -/
def ServeHTTP (s : Auth.Service) (env : Env) (req : Request) (st : State) : Response × State :=
  match SetupRoutes.find? (fun r => r.method == req.method && r.path == req.path) with
  | none => (⟨404, []⟩, st)
  | some r =>
    let c : Context := ⟨req, []⟩
    if r.auth then
      match Auth.FirebaseAuthMiddleware s c with
      | .abort resp => (resp, st)
      | .next c1 => call env r.handler c1 (st.record (.handler r.handler))
    else call env r.handler c (st.record (.handler r.handler))

end Api

/-! ## Concrete services used to run the definitions on explicit inputs -/

namespace Sample

/-- An identity provider knowing two tokens, `tokA` of user `alice` and `tokB`
of user `bob`; every other token (the empty one included) is rejected. A JWT
library accepting the HMAC-signed token `jwtA` of `alice`. -/
def service : Auth.Service where
  config := ⟨"secret"⟩
  VerifyIDToken := fun t =>
    if t = "tokA" then .ok ⟨"alice", [("email", "alice@example.com")]⟩
    else if t = "tokB" then .ok ⟨"bob", []⟩
    else .error "failed to verify token"
  ParseWithClaims := fun t key =>
    if t = "jwtA" then
      match key (.HMAC "HS256") with
      | .ok _ => .ok ⟨true, ⟨"alice", "user"⟩⟩
      | .error e => .error e
    else .error "token is malformed"

/-- The JSON text of the connect body of user `u1`. -/
def connectBody : String :=
  "\x7b\"userId\":\"u1\",\"nightscoutUrl\":\"https://example.com\",\"apiKey\":\"k\"\x7d"

/-- The all-zero entry a JSON object without fields decodes to. -/
def zeroEntry : Models.GlucoseEntry :=
  ⟨"", "", "", 0, 0, 0, "", "", 0, 0, 0, 0, ""⟩

/-- The instant 2024-01-01T00:00:00Z. -/
def newYear : Time := ⟨63839664000, 0, 0⟩

/-- A fault-free world: the host answers every request with status 200 and a
JSON array of two empty objects; the libraries know the inputs used below. -/
def env : Env where
  jsonUnmarshal := fun b =>
    if b = connectBody then .ok ⟨"u1", "https://example.com", "k"⟩
    else .error "invalid character"
  fieldError := fun field tag => "Field validation for " ++ field ++ " failed on the " ++ tag ++ " tag"
  validURL := fun u => u = "https://example.com"
  timeParse := fun v =>
    if v = "2024-01-01T00:00:00Z" then .ok newYear else .error "cannot parse"
  timeFormat := fun t => if t = newYear then "2024-01-01T00:00:00Z" else "0001-01-01T00:00:00Z"
  now := newYear
  jsonDecode := fun b =>
    if b = "[\x7b\x7d,\x7b\x7d]" then .ok [zeroEntry, zeroEntry]
    else if b = "[]" then .ok []
    else .error "unexpected end of JSON input"
  newApp := none
  firestoreClient := fun _ => none
  firestoreOp := fun _ => none
  serverTimestamp := newYear
  newRequest := fun _ _ => none
  httpDo := fun _ _ => .ok ⟨200, "[\x7b\x7d,\x7b\x7d]"⟩

/-- The same world, except that the store cannot be reached for a delete. -/
def envDeleteDown : Env :=
  { env with firestoreOp := fun op => if op = .delete then some "unavailable" else none }

/-- The same world, except that the host answers every request with the given
status code (and the same JSON array of two empty objects). -/
def envStatus (code : Nat) : Env :=
  { env with httpDo := fun _ _ => .ok ⟨code, "[\x7b\x7d,\x7b\x7d]"⟩ }

/-- A request with the given method, path, header and query and no body. -/
def request (method path authorization : String) (query : List (String × String)) : Request :=
  ⟨method, path, authorization, query, ""⟩

/-- A store holding the connection of user `bob`. -/
def bobStore : Firestore.Store :=
  [("bob", [("nightscoutUrl", .str "https://bob.example"), ("nightscoutApiKey", .str "bk"),
            ("connected", .bool true), ("lastUpdated", .timestamp newYear)])]

end Sample

/-! ## Lemmas on the string helpers -/

namespace Strings

theorem splitChars_ne_nil (sep : Char) (l : List Char) : splitChars sep l ≠ [] := by
  cases l with
  | nil => simp [splitChars]
  | cons c cs =>
    unfold splitChars
    split
    · simp
    · split <;> simp

theorem splitChars_eq_single (sep : Char) (l b : List Char) :
    splitChars sep l = [b] ↔ l = b ∧ sep ∉ b := by
  induction l generalizing b with
  | nil =>
    simp [splitChars]
    intro h
    simp [h]
  | cons c cs ih =>
    unfold splitChars
    by_cases hc : c = sep
    · simp [hc, splitChars_ne_nil]
      rintro rfl
      simp
    · simp only [hc, if_false]
      cases hs : splitChars sep cs with
      | nil => exact absurd hs (splitChars_ne_nil sep cs)
      | cons p ps =>
        simp only [List.cons.injEq]
        constructor
        · rintro ⟨rfl, rfl⟩
          have := (ih p).1 hs
          refine ⟨by rw [this.1], ?_⟩
          simp [this.2, Ne.symm hc]
        · rintro ⟨rfl, hb⟩
          simp at hb
          have := (ih cs).2 ⟨rfl, hb.2⟩
          rw [hs] at this
          simpa using this

theorem splitChars_eq_pair (sep : Char) (l a b : List Char) :
    splitChars sep l = [a, b] ↔ l = a ++ sep :: b ∧ sep ∉ a ∧ sep ∉ b := by
  induction l generalizing a with
  | nil => simp [splitChars]
  | cons c cs ih =>
    unfold splitChars
    by_cases hc : c = sep
    · subst hc
      simp only [if_true, List.cons.injEq]
      constructor
      · rintro ⟨rfl, h⟩
        have := (splitChars_eq_single c cs b).1 h
        simp [this.1, this.2]
      · rintro ⟨h, ha, hb⟩
        cases a with
        | nil =>
          simp at h
          exact ⟨rfl, (splitChars_eq_single c cs b).2 ⟨h, hb⟩⟩
        | cons x xs =>
          simp at h ha
          exact absurd h.1 ha.1
    · simp only [hc, if_false]
      cases hs : splitChars sep cs with
      | nil => exact absurd hs (splitChars_ne_nil sep cs)
      | cons p ps =>
        simp only [List.cons.injEq]
        constructor
        · rintro ⟨rfl, rfl⟩
          have := (ih p).1 hs
          refine ⟨by rw [this.1]; simp, ?_, this.2.2⟩
          simp [this.2.1, Ne.symm hc]
        · rintro ⟨h, ha, hb⟩
          cases a with
          | nil => simp at h; exact absurd h.1 hc
          | cons x xs =>
            simp at h ha
            have := (ih xs).2 ⟨h.2, ha.2, hb⟩
            rw [hs] at this
            simp at this
            simp [h.1, this.1, this.2]

end Strings

namespace Strings

theorem Split_bearer (tok : String) (h : ' ' ∉ tok.data) :
    Split ("Bearer " ++ tok) ' ' = ["Bearer", tok] := by
  have hd : ("Bearer " ++ tok).data = "Bearer".data ++ ' ' :: tok.data := by
    simp [String.data_append]
  have hp := (splitChars_eq_pair ' ' ("Bearer " ++ tok).data "Bearer".data tok.data).2
    ⟨hd, by decide, h⟩
  unfold Split
  rw [hp]
  rfl

theorem Split_wellformed (h : String)
    (hlen : (Split h ' ').length = 2) (hhead : (Split h ' ').getD 0 "" = "Bearer") :
    ∃ tok : String, h = "Bearer " ++ tok ∧ ' ' ∉ tok.data := by
  unfold Split at hlen hhead
  match hs : splitChars ' ' h.data, hlen, hhead with
  | [a, b], _, hhead =>
    simp at hhead
    have ha : a = "Bearer".data := by rw [← hhead]
    have := (splitChars_eq_pair ' ' h.data a b).1 hs
    refine ⟨⟨b⟩, ?_, this.2.2⟩
    apply String.ext
    simp [String.data_append, this.1, ha]

end Strings

namespace Auth

theorem bearer_ne_empty (tok : String) : "Bearer " ++ tok ≠ "" := by
  intro h
  have := congrArg String.data h
  simp [String.data_append] at this

theorem firebase_bearer (s : Service) (c : Context) (tok : String)
    (hh : c.GetHeader = "Bearer " ++ tok) (hs : ' ' ∉ tok.data) :
    FirebaseAuthMiddleware s c =
      match VerifyFirebaseToken s tok with
      | .error _ => .abort ⟨401, [("error", .str "Invalid or expired Firebase token")]⟩
      | .ok token =>
        match token.Claims.lookup "email" with
        | some email => .next ((c.Set "userID" token.UID).Set "userEmail" email)
        | none => .next (c.Set "userID" token.UID) := by
  unfold FirebaseAuthMiddleware
  simp only [hh, Strings.Split_bearer tok hs, bearer_ne_empty, if_false]
  simp

theorem jwt_bearer (s : Service) (c : Context) (tok : String)
    (hh : c.GetHeader = "Bearer " ++ tok) (hs : ' ' ∉ tok.data) :
    AuthMiddleware s c =
      match VerifyToken s tok with
      | .error _ => .abort ⟨401, [("error", .str "Invalid or expired token")]⟩
      | .ok claims => .next ((c.Set "userID" claims.UserID).Set "userRole" claims.Role) := by
  unfold AuthMiddleware
  simp only [hh, Strings.Split_bearer tok hs, bearer_ne_empty, if_false]
  simp

theorem missing_header (s : Service) (c : Context) (h : c.GetHeader = "") :
    FirebaseAuthMiddleware s c = .abort errHeaderRequired ∧
    AuthMiddleware s c = .abort errHeaderRequired := by
  simp [FirebaseAuthMiddleware, AuthMiddleware, h]

theorem malformed_header (s : Service) (c : Context) (hne : c.GetHeader ≠ "")
    (hn : ¬ ∃ tok : String, c.GetHeader = "Bearer " ++ tok ∧ ' ' ∉ tok.data) :
    FirebaseAuthMiddleware s c = .abort errHeaderFormat ∧
    AuthMiddleware s c = .abort errHeaderFormat := by
  have hbad : (Strings.Split c.GetHeader ' ').length ≠ 2 ∨
      (Strings.Split c.GetHeader ' ').getD 0 "" ≠ "Bearer" := by
    by_contra hcon
    push_neg at hcon
    exact hn (Strings.Split_wellformed _ hcon.1 hcon.2)
  unfold FirebaseAuthMiddleware AuthMiddleware
  simp only [hne, if_false, hbad, if_true, and_self]

theorem getUserID_set (c : Context) (uid : String) : GetUserID (c.Set "userID" uid) = uid := by
  simp [GetUserID, Context.Get, Context.Set, List.lookup]

theorem getUserID_set_other (c : Context) (k v : String) (hk : k ≠ "userID") :
    GetUserID (c.Set k v) = GetUserID c := by
  have : ("userID" == k) = false := by
    simpa using fun h => hk h.symm
  simp [GetUserID, Context.Get, Context.Set, List.lookup, this]

end Auth

/-! ## C1: requests that fail authentication -/

namespace Api

/-- On each of the four protected routes the router runs the middleware and
then, only on `next`, the handler registered for the route. -/
theorem serve_protected (s : Auth.Service) (env : Env) (req : Request) (st : State)
    (hroute : (req.method = "POST" ∧ req.path = "/api/nightscout/connect") ∨
      (req.method = "GET" ∧ req.path = "/api/nightscout/verify") ∨
      (req.method = "GET" ∧ req.path = "/api/nightscout/entries") ∨
      (req.method = "DELETE" ∧ req.path = "/api/nightscout/disconnect")) :
    ∃ h : HandlerFunc, ServeHTTP s env req st =
      match Auth.FirebaseAuthMiddleware s ⟨req, []⟩ with
      | .abort resp => (resp, st)
      | .next c1 => call env h c1 (st.record (.handler h)) := by
  rcases hroute with ⟨hm, hp⟩ | ⟨hm, hp⟩ | ⟨hm, hp⟩ | ⟨hm, hp⟩
  · exact ⟨.ConnectNightscout, by simp [ServeHTTP, SetupRoutes, List.find?, hm, hp]⟩
  · exact ⟨.VerifyNightscout, by simp [ServeHTTP, SetupRoutes, List.find?, hm, hp]⟩
  · exact ⟨.GetNightscoutEntries, by simp [ServeHTTP, SetupRoutes, List.find?, hm, hp]⟩
  · exact ⟨.DisconnectNightscout, by simp [ServeHTTP, SetupRoutes, List.find?, hm, hp]⟩

end Api

/-- C1: on every protected route, a request whose Authorization header is
missing, is not of the Bearer shape, or carries a token the identity provider
rejects is answered 401 and leaves the state as it was: the store is unchanged
and the trace gains no event, so no handler was entered and no call reached
the credential store or the glucose host. -/
theorem Api.unauthenticated_request_rejected
    (s : Auth.Service) (env : Env) (req : Request) (st : State)
    (hroute : (req.method = "POST" ∧ req.path = "/api/nightscout/connect") ∨
      (req.method = "GET" ∧ req.path = "/api/nightscout/verify") ∨
      (req.method = "GET" ∧ req.path = "/api/nightscout/entries") ∨
      (req.method = "DELETE" ∧ req.path = "/api/nightscout/disconnect"))
    (hbad : req.authorization = "" ∨
      (¬ ∃ tok : String, req.authorization = "Bearer " ++ tok ∧ ' ' ∉ tok.data) ∨
      (∃ tok e, req.authorization = "Bearer " ++ tok ∧ ' ' ∉ tok.data ∧
        s.VerifyIDToken tok = .error e)) :
    (Api.ServeHTTP s env req st).1.status = 401 ∧
    (Api.ServeHTTP s env req st).2.store = st.store ∧
    (Api.ServeHTTP s env req st).2.trace = st.trace := by
  obtain ⟨h, hserve⟩ := Api.serve_protected s env req st hroute
  have hab : ∃ r : Response, r.status = 401 ∧
      Auth.FirebaseAuthMiddleware s ⟨req, []⟩ = .abort r := by
    by_cases hempty : req.authorization = ""
    · exact ⟨_, rfl, (Auth.missing_header s ⟨req, []⟩ hempty).1⟩
    · rcases hbad with h1 | h2 | ⟨tok, e, hh, hs, hv⟩
      · exact absurd h1 hempty
      · exact ⟨_, rfl, (Auth.malformed_header s ⟨req, []⟩ hempty h2).1⟩
      · refine ⟨⟨401, [("error", .str "Invalid or expired Firebase token")]⟩, rfl, ?_⟩
        rw [Auth.firebase_bearer s ⟨req, []⟩ tok hh hs]
        simp [Auth.VerifyFirebaseToken, hv]
  obtain ⟨r, hr, hmw⟩ := hab
  rw [hserve, hmw]
  exact ⟨hr, rfl, rfl⟩

/-- C1 witness: a disconnect request for the stored user `bob` that carries an
unknown token is answered 401 and leaves the connection of `bob` in place. -/
theorem Api.unauthenticated_request_rejected_witness :
    (Api.ServeHTTP Sample.service Sample.env
        (Sample.request "DELETE" "/api/nightscout/disconnect" "Bearer nope" [("userId", "bob")])
        ⟨Sample.bobStore, []⟩).1.status = 401 ∧
    (Api.ServeHTTP Sample.service Sample.env
        (Sample.request "DELETE" "/api/nightscout/disconnect" "Bearer nope" [("userId", "bob")])
        ⟨Sample.bobStore, []⟩).2.store = Sample.bobStore ∧
    (Api.ServeHTTP Sample.service Sample.env
        (Sample.request "DELETE" "/api/nightscout/disconnect" "Bearer nope" [("userId", "bob")])
        ⟨Sample.bobStore, []⟩).2.trace = [] :=
  Api.unauthenticated_request_rejected Sample.service Sample.env
    (Sample.request "DELETE" "/api/nightscout/disconnect" "Bearer nope" [("userId", "bob")])
    ⟨Sample.bobStore, []⟩
    (Or.inr (Or.inr (Or.inr ⟨rfl, rfl⟩)))
    (Or.inr (Or.inr ⟨"nope", "failed to verify token", by decide, by decide, rfl⟩))

/-! ## C2: the shape of the Authorization header -/

/-- C2 (refuted as stated): the header `Bearer ` followed by nothing is not the
word Bearer, a space and a non-empty token, yet neither middleware rejects it
as a malformed header: both hand the empty token to their verifier and answer
with the verifier's 401. -/
theorem Auth.empty_token_not_malformed :
    (¬ ∃ tok : String, tok ≠ "" ∧ ' ' ∉ tok.data ∧ "Bearer " = "Bearer " ++ tok) ∧
    Auth.FirebaseAuthMiddleware Sample.service
        ⟨Sample.request "GET" "/api/nightscout/verify" "Bearer " [], []⟩ =
      .abort ⟨401, [("error", .str "Invalid or expired Firebase token")]⟩ ∧
    Auth.AuthMiddleware Sample.service
        ⟨Sample.request "GET" "/api/nightscout/verify" "Bearer " [], []⟩ =
      .abort ⟨401, [("error", .str "Invalid or expired token")]⟩ := by
  refine ⟨?_, by decide, by decide⟩
  rintro ⟨tok, hne, -, h⟩
  have hd := congrArg String.data h
  simp [String.data_append] at hd
  exact hne (String.ext hd)

/-- C2 (amended): for both middlewares, an empty Authorization header is
answered 401 `Authorization header is required`; a header that is the word
Bearer, one space and a token without spaces (possibly empty) has exactly that
token handed to the verifier, whose verdict decides between the 401 of an
invalid token and continuing with the verified user id in the context; every
other non-empty header is answered 401 `Authorization header format must be
Bearer token`. -/
theorem Auth.bearer_header_contract (s : Auth.Service) (c : Context) :
    (c.GetHeader = "" →
      Auth.FirebaseAuthMiddleware s c =
        .abort ⟨401, [("error", .str "Authorization header is required")]⟩ ∧
      Auth.AuthMiddleware s c =
        .abort ⟨401, [("error", .str "Authorization header is required")]⟩) ∧
    (∀ tok : String, c.GetHeader = "Bearer " ++ tok → ' ' ∉ tok.data →
      (∀ e, Auth.VerifyFirebaseToken s tok = .error e →
        Auth.FirebaseAuthMiddleware s c =
          .abort ⟨401, [("error", .str "Invalid or expired Firebase token")]⟩) ∧
      (∀ token, Auth.VerifyFirebaseToken s tok = .ok token →
        ∃ c1, Auth.FirebaseAuthMiddleware s c = .next c1 ∧ Auth.GetUserID c1 = token.UID) ∧
      (∀ e, Auth.VerifyToken s tok = .error e →
        Auth.AuthMiddleware s c =
          .abort ⟨401, [("error", .str "Invalid or expired token")]⟩) ∧
      (∀ claims, Auth.VerifyToken s tok = .ok claims →
        ∃ c1, Auth.AuthMiddleware s c = .next c1 ∧ Auth.GetUserID c1 = claims.UserID)) ∧
    (c.GetHeader ≠ "" →
      (¬ ∃ tok : String, c.GetHeader = "Bearer " ++ tok ∧ ' ' ∉ tok.data) →
      Auth.FirebaseAuthMiddleware s c =
        .abort ⟨401, [("error", .str "Authorization header format must be Bearer \x7btoken\x7d")]⟩ ∧
      Auth.AuthMiddleware s c =
        .abort ⟨401, [("error", .str "Authorization header format must be Bearer \x7btoken\x7d")]⟩) := by
  refine ⟨?_, ?_, ?_⟩
  · intro h
    exact Auth.missing_header s c h
  · intro tok hh hs
    refine ⟨?_, ?_, ?_, ?_⟩
    · intro e he
      rw [Auth.firebase_bearer s c tok hh hs, he]
    · intro token he
      rw [Auth.firebase_bearer s c tok hh hs, he]
      cases hl : token.Claims.lookup "email" with
      | none =>
        simp only [hl]
        exact ⟨_, rfl, Auth.getUserID_set c token.UID⟩
      | some email =>
        simp only [hl]
        refine ⟨_, rfl, ?_⟩
        rw [Auth.getUserID_set_other _ _ _ (by decide), Auth.getUserID_set]
    · intro e he
      rw [Auth.jwt_bearer s c tok hh hs, he]
    · intro claims he
      rw [Auth.jwt_bearer s c tok hh hs, he]
      refine ⟨_, rfl, ?_⟩
      rw [Auth.getUserID_set_other _ _ _ (by decide), Auth.getUserID_set]
  · intro hne hn
    exact Auth.malformed_header s c hne hn

/-- C2 witness: the header `Bearer tokA` reaches the identity provider with the
token `tokA` and the request continues as user `alice`. -/
theorem Auth.bearer_header_contract_witness :
    ∃ c1, Auth.FirebaseAuthMiddleware Sample.service
        ⟨Sample.request "GET" "/api/nightscout/verify" "Bearer tokA" [], []⟩ = .next c1 ∧
      Auth.GetUserID c1 = "alice" :=
  ((Auth.bearer_header_contract Sample.service
      ⟨Sample.request "GET" "/api/nightscout/verify" "Bearer tokA" [], []⟩).2.1
    "tokA" (by decide) (by decide)).2.1 ⟨"alice", [("email", "alice@example.com")]⟩ rfl

/-! ## C3: connect, then get -/

namespace Firestore

theorem get_setMerge (s : Store) (id : String) (data : Doc) :
    get (setMerge s id data) id = some (merge data ((get s id).getD [])) := by
  simp [get, setMerge, List.lookup]

theorem get_delete (s : Store) (id : String) : get (delete s id) id = none := by
  unfold get delete
  induction s with
  | nil => rfl
  | cons kv rest ih =>
    obtain ⟨k, v⟩ := kv
    by_cases h : k = id
    · simpa [List.filter_cons, h] using ih
    · have hb : (id == k) = false := by simpa using fun e => h e.symm
      have hne : (k != id) = true := by simpa using h
      rw [List.filter_cons]
      simp only [hne, if_true, List.lookup, hb]
      exact ih

theorem delete_of_get_none (s : Store) (id : String) (h : get s id = none) :
    delete s id = s := by
  unfold get at h
  unfold delete
  induction s with
  | nil => rfl
  | cons kv rest ih =>
    obtain ⟨k, v⟩ := kv
    by_cases hk : id = k
    · subst hk
      simp [List.lookup] at h
    · have hb : (id == k) = false := by simpa using hk
      simp only [List.lookup, hb] at h
      have hk2 : ¬ k = id := fun e => hk e.symm
      have hne : (k != id) = true := by simpa using hk2
      rw [List.filter_cons]
      simp only [hne, if_true]
      rw [ih h]

end Firestore

namespace Firebase

/-- A save that reports no error is followed, on a reachable store, by a get
of the same user that returns the saved pair. -/
theorem get_after_save (env env2 : Env) (st st1 : State) (userID url apiKey : String)
    (hsave : SaveNightscoutConnection env st userID url apiKey = (none, st1))
    (hc : env2.firestoreClient .get = none) (ho : env2.firestoreOp .get = none)
    (tr : List Event) :
    (GetNightscoutConnection env2 ⟨st1.store, tr⟩ userID).1 = .ok (url, apiKey) := by
  unfold SaveNightscoutConnection at hsave
  cases h1 : env.firestoreClient .set with
  | some e => simp [h1] at hsave
  | none =>
    cases h2 : env.firestoreOp .set with
    | some e => simp [h1, h2] at hsave
    | none =>
      simp only [h1, h2, Prod.mk.injEq, true_and] at hsave
      subst hsave
      simp [GetNightscoutConnection, hc, ho, State.record, Firestore.get_setMerge,
        stringField, Firestore.merge, List.lookup, Constants.FieldNightscoutURL,
        Constants.FieldNightscoutAPIKey]

/-- After a save that reports no error, whatever pair a get of the same user
returns is the saved pair. -/
theorem get_after_save_any (env env2 : Env) (st st1 : State) (userID url apiKey : String)
    (hsave : SaveNightscoutConnection env st userID url apiKey = (none, st1))
    (tr : List Event) (p : String × String)
    (hget : (GetNightscoutConnection env2 ⟨st1.store, tr⟩ userID).1 = .ok p) :
    p = (url, apiKey) := by
  cases hc : env2.firestoreClient .get with
  | some e => simp [GetNightscoutConnection, hc] at hget
  | none =>
    cases ho : env2.firestoreOp .get with
    | some e => simp [GetNightscoutConnection, hc, ho] at hget
    | none =>
      rw [get_after_save env env2 st st1 userID url apiKey hsave hc ho tr] at hget
      cases hget
      rfl

end Firebase

namespace Api

/-- A connect answered 200 went through a save that reported no error. -/
theorem connect_ok_saved (env : Env) (c : Context) (st : State) (request : ConnectRequest)
    (hbind : ShouldBindJSON env c = .ok request)
    (hok : (ConnectNightscout env c st).1.status = 200) :
    ∃ st1, Firebase.SaveNightscoutConnection env st1
        request.UserID request.NightscoutURL request.APIKey =
      (none, (ConnectNightscout env c st).2) := by
  unfold ConnectNightscout at hok ⊢
  simp only [hbind] at hok ⊢
  cases hv : Nightscout.Verify env
      (Nightscout.NewClient request.NightscoutURL request.APIKey) st with
  | mk r st1 =>
    cases r with
    | some e => simp [hv] at hok
    | none =>
      simp only [hv] at hok ⊢
      cases hn : Firebase.NewClient env with
      | error e => simp [hn, recovered] at hok
      | ok u =>
        simp only [hn] at hok ⊢
        cases hs : Firebase.SaveNightscoutConnection env st1
            request.UserID request.NightscoutURL request.APIKey with
        | mk r2 st2 =>
          cases r2 with
          | some e => simp [hs] at hok
          | none => exact ⟨st1, by simp [hs]⟩

end Api

/-- C3: whatever the store held before (a connection of the same user
included), after a connect request that was answered 200, every get of the
user id of that request that returns a pair returns exactly the URL and API
key of that request, and a get made while the store is reachable does return
it. -/
theorem Api.connect_then_get (env : Env) (c : Context) (st : State)
    (request : ConnectRequest)
    (hbind : Api.ShouldBindJSON env c = .ok request)
    (hok : (Api.ConnectNightscout env c st).1.status = 200) :
    (∀ (env2 : Env) (tr : List Event) (p : String × String),
      (Firebase.GetNightscoutConnection env2
          ⟨(Api.ConnectNightscout env c st).2.store, tr⟩ request.UserID).1 = .ok p →
      p = (request.NightscoutURL, request.APIKey)) ∧
    (∀ (env2 : Env) (tr : List Event),
      env2.firestoreClient .get = none → env2.firestoreOp .get = none →
      (Firebase.GetNightscoutConnection env2
          ⟨(Api.ConnectNightscout env c st).2.store, tr⟩ request.UserID).1 =
        .ok (request.NightscoutURL, request.APIKey)) := by
  obtain ⟨st1, hs⟩ := Api.connect_ok_saved env c st request hbind hok
  exact ⟨fun env2 tr p hp => Firebase.get_after_save_any env env2 st1 _ _ _ _ hs tr p hp,
    fun env2 tr hc ho => Firebase.get_after_save env env2 st1 _ _ _ _ hs hc ho tr⟩

/-- C3 witness: user `u1`, who already has a stored connection to another
host, connects to `https://example.com` with key `k`; the next get returns
that pair. -/
theorem Api.connect_then_get_witness :
    (Firebase.GetNightscoutConnection Sample.env
        ⟨(Api.ConnectNightscout Sample.env
            ⟨⟨"POST", "/api/nightscout/connect", "Bearer tokA", [], Sample.connectBody⟩, []⟩
            ⟨[("u1", [("nightscoutUrl", .str "https://old.example"),
                      ("nightscoutApiKey", .str "old"), ("note", .other 7)])], []⟩).2.store,
          []⟩ "u1").1 = .ok ("https://example.com", "k") :=
  (Api.connect_then_get Sample.env
    ⟨⟨"POST", "/api/nightscout/connect", "Bearer tokA", [], Sample.connectBody⟩, []⟩
    ⟨[("u1", [("nightscoutUrl", .str "https://old.example"),
              ("nightscoutApiKey", .str "old"), ("note", .other 7)])], []⟩
    ⟨"u1", "https://example.com", "k"⟩ rfl rfl).2 Sample.env [] rfl rfl

/-! ## C4 and C5: the URL sent to the glucose host -/

namespace Nightscout

/-- The endpoint built by `GetEntries`, and what the function does with it. -/
theorem GetEntries_eq (env : Env) (c : Client) (st : State) (count : Int)
    (dateFrom dateTo : Time) :
    GetEntries env c st count dateFrom dateTo =
      match makeRequest env c st "GET"
          ("/api/v1/entries.json" ++ "?count=" ++ toString count ++
            (if dateFrom.IsZero then "" else "&find[dateString][$gte]=" ++ env.timeFormat dateFrom) ++
            (if dateTo.IsZero then "" else "&find[dateString][$lte]=" ++ env.timeFormat dateTo)) with
      | (.error e, st1) => (.error ("failed to fetch entries: " ++ e), st1)
      | (.ok resp, st1) =>
        match env.jsonDecode resp.Body with
        | .error e => (.error ("failed to parse entries: " ++ e), st1)
        | .ok entries => (.ok entries, st1) := by
  unfold GetEntries
  cases hf : dateFrom.IsZero <;> cases ht : dateTo.IsZero <;>
    simp [Constants.NightscoutAPIEntriesEndpoint, String.append_assoc]

/-- The state after `GetEntries` is the state after its one `makeRequest`. -/
theorem GetEntries_state (env : Env) (c : Client) (st : State) (count : Int)
    (dateFrom dateTo : Time) :
    (GetEntries env c st count dateFrom dateTo).2 =
      (makeRequest env c st "GET"
          ("/api/v1/entries.json" ++ "?count=" ++ toString count ++
            (if dateFrom.IsZero then "" else "&find[dateString][$gte]=" ++ env.timeFormat dateFrom) ++
            (if dateTo.IsZero then "" else "&find[dateString][$lte]=" ++ env.timeFormat dateTo))).2 := by
  rw [GetEntries_eq]
  split
  · next h => rw [h]
  · next h =>
    rw [h]
    split <;> rfl

end Nightscout

/-- C4: `GetEntries` hands to `makeRequest` the endpoint made of the entries
path, `?count=` and the count in decimal, then the `$gte` clause with
`dateFrom` in RFC 3339 exactly when `dateFrom` is not the zero time, then the
`$lte` clause with `dateTo` exactly when `dateTo` is not the zero time; with
both bounds absent the endpoint ends after the count. -/
theorem Nightscout.getEntries_endpoint (env : Env) (c : Nightscout.Client) (st : State)
    (count : Int) (dateFrom dateTo : Time) :
    Nightscout.GetEntries env c st count dateFrom dateTo =
      (match Nightscout.makeRequest env c st "GET"
          ("/api/v1/entries.json" ++ "?count=" ++ toString count ++
            (if dateFrom.IsZero then "" else "&find[dateString][$gte]=" ++ env.timeFormat dateFrom) ++
            (if dateTo.IsZero then "" else "&find[dateString][$lte]=" ++ env.timeFormat dateTo)) with
      | (.error e, st1) => (.error ("failed to fetch entries: " ++ e), st1)
      | (.ok resp, st1) =>
        match env.jsonDecode resp.Body with
        | .error e => (.error ("failed to parse entries: " ++ e), st1)
        | .ok entries => (.ok entries, st1)) ∧
    (dateFrom.IsZero = true → dateTo.IsZero = true →
      (Nightscout.GetEntries env c st count dateFrom dateTo).2 =
        (Nightscout.makeRequest env c st "GET"
          ("/api/v1/entries.json?count=" ++ toString count)).2) := by
  refine ⟨Nightscout.GetEntries_eq env c st count dateFrom dateTo, ?_⟩
  intro hf ht
  rw [Nightscout.GetEntries_state, hf, ht]
  simp [String.append_assoc]

/-- C4 witness: five entries from 2024-01-01T00:00:00Z on, no upper bound,
with the key `k`: one request, to the URL spelled out below. -/
theorem Nightscout.getEntries_endpoint_witness :
    (Nightscout.GetEntries Sample.env ⟨"https://example.com", "k"⟩ ⟨[], []⟩ 5
        Sample.newYear Time.zero).2.trace =
      [.httpDo "GET"
        "https://example.com/api/v1/entries.json?count=5&find[dateString][$gte]=2024-01-01T00:00:00Z&token=k"] := by
  rw [(Nightscout.getEntries_endpoint Sample.env ⟨"https://example.com", "k"⟩ ⟨[], []⟩ 5
        Sample.newYear Time.zero).1]
  decide

namespace URL

end URL

namespace Strconv

theorem Atoi_empty : Atoi "" = .error .syntaxErr := rfl

end Strconv

namespace Api

/-- The handler of list-entries in terms of `countSpec` and `dateSpec`. -/
theorem GetNightscoutEntries_eq (env : Env) (c : Context) (st : State) :
    GetNightscoutEntries env c st =
      if c.Query "userId" = "" then (⟨400, [("error", .str "userId is required")]⟩, st)
      else
        match Firebase.NewClient env with
        | .error _ => (recovered, st)
        | .ok _ =>
          match Firebase.GetNightscoutConnection env st (c.Query "userId") with
          | (.error _, st1) => (⟨500, [("error", .str "Failed to get connection details")]⟩, st1)
          | (.ok (url, apiKey), st1) =>
            match Nightscout.GetEntries env ⟨url, apiKey⟩ st1 (countSpec (c.Query "count"))
                (dateSpec env (c.Query "from")) (dateSpec env (c.Query "to")) with
            | (.error e, st2) =>
              (⟨500, [("error", .str "Failed to fetch entries"), ("details", .str e)]⟩, st2)
            | (.ok entries, st2) =>
              (⟨200, [("entries", .entries entries), ("count", .num entries.length)]⟩, st2) := by
  have hcount : (if c.Query Constants.ParamCount ≠ "" then
        match Strconv.Atoi (c.Query Constants.ParamCount) with
        | .ok n => if n > 0 then n else Constants.DefaultEntriesCount
        | .error _ => Constants.DefaultEntriesCount
      else Constants.DefaultEntriesCount) = countSpec (c.Query "count") := by
    simp only [Constants.ParamCount, Constants.DefaultEntriesCount, countSpec]
    by_cases hp : c.Query "count" = ""
    · simp [hp, Strconv.Atoi_empty]
    · simp only [ne_eq, hp, not_false_eq_true, if_true]
  have hdate : ∀ key : String, (if c.Query key ≠ "" then
        match env.timeParse (c.Query key) with
        | .ok t => t
        | .error _ => Time.zero
      else Time.zero) = dateSpec env (c.Query key) := by
    intro key
    unfold dateSpec
    by_cases hp : c.Query key = "" <;> simp [hp]
  unfold GetNightscoutEntries
  simp only [hcount, hdate Constants.ParamFrom, hdate Constants.ParamTo]
  simp only [Constants.ParamFrom, Constants.ParamTo, Constants.ErrMsgUserIDRequired,
    Constants.ErrMsgGetConnectionFailed, Constants.ErrMsgFetchEntriesFailed, Nightscout.NewClient]

theorem countSpec_pos (p : String) : 0 < countSpec p := by
  unfold countSpec
  cases Strconv.Atoi p with
  | error e => simp
  | ok n =>
    by_cases h : 0 < n <;> simp [h]

/-- List-entries answers 400 exactly when `userId` is missing. -/
theorem entries_400_iff (env : Env) (c : Context) (st : State) :
    (GetNightscoutEntries env c st).1.status = 400 ↔ c.Query "userId" = "" := by
  rw [GetNightscoutEntries_eq]
  by_cases hu : c.Query "userId" = ""
  · simp [hu]
  · simp only [hu, if_false, iff_false]
    cases Firebase.NewClient env with
    | error e => simp [recovered]
    | ok u =>
      simp only
      rcases Firebase.GetNightscoutConnection env st (c.Query "userId") with ⟨r, st1⟩
      cases r with
      | error e => simp
      | ok p =>
        obtain ⟨url, apiKey⟩ := p
        simp only
        rcases Nightscout.GetEntries env ⟨url, apiKey⟩ st1 (countSpec (c.Query "count"))
          (dateSpec env (c.Query "from")) (dateSpec env (c.Query "to")) with ⟨r2, st2⟩
        cases r2 <;> simp

end Api

namespace Strconv

theorem digitChar_spec (d : Nat) (hd : d < 10) :
    isDigit (Nat.digitChar d) = true ∧ (Nat.digitChar d).toNat - 48 = d := by
  interval_cases d <;> exact ⟨by decide, by decide⟩

theorem digitsValue_append (l : List Char) (d : Char) :
    digitsValue (l ++ [d]) = digitsValue l * 10 + (d.toNat - 48) := by
  simp [digitsValue, List.foldl_append]

/-- The digits `Nat.toDigits` puts in front of its accumulator: a non-empty
run of decimal digits whose value is the number. -/
theorem toDigitsCore_spec (fuel : Nat) : ∀ (n : Nat) (ds : List Char), n < fuel →
    ∃ l : List Char, Nat.toDigitsCore 10 fuel n ds = l ++ ds ∧ l ≠ [] ∧
      l.all isDigit = true ∧ digitsValue l = n := by
  induction fuel with
  | zero => intro n ds h; omega
  | succ fuel ih =>
    intro n ds h
    unfold Nat.toDigitsCore
    have hd := digitChar_spec (n % 10) (Nat.mod_lt _ (by decide))
    by_cases h0 : n / 10 = 0
    · refine ⟨[Nat.digitChar (n % 10)], by simp [h0], by simp, by simp [hd.1], ?_⟩
      simp only [digitsValue, List.foldl, hd.2]
      omega
    · obtain ⟨l, hl, _, hall, hval⟩ := ih (n / 10) (Nat.digitChar (n % 10) :: ds) (by omega)
      refine ⟨l ++ [Nat.digitChar (n % 10)], by simp [h0, hl], by simp, ?_, ?_⟩
      · simp [List.all_append, hall, hd.1]
      · rw [digitsValue_append, hval, hd.2]
        omega

theorem Atoi_digits (s : String) (l : List Char) (hs : s.data = l) (hne : l ≠ [])
    (hall : l.all isDigit = true) (hrange : digitsValue l < 2 ^ 63) :
    Atoi s = .ok (digitsValue l : Int) := by
  unfold Atoi
  rw [hs]
  cases l with
  | nil => exact absurd rfl hne
  | cons c rest =>
    have hc : isDigit c = true := by
      simp [List.all_cons] at hall
      exact hall.1
    have hminus : c ≠ '-' := by
      rintro rfl
      exact absurd hc (by decide)
    have hplus : c ≠ '+' := by
      rintro rfl
      exact absurd hc (by decide)
    have hr : ¬ digitsValue (c :: rest) ≥ 2 ^ 63 := by omega
    simp [hminus, hplus, hall, hr]
    omega

/-- Round trip: `Atoi` reads the decimal numeral of every natural number below
`2 ^ 63` back as that number. -/
theorem Atoi_repr (n : Nat) (hn : n < 2 ^ 63) : Atoi (toString (n : Int)) = .ok (n : Int) := by
  obtain ⟨l, hl, hne, hall, hval⟩ := toDigitsCore_spec (n + 1) n [] (by omega)
  have hs : (toString (n : Int)).data = l := by
    show (Nat.toDigits 10 n).asString.data = l
    simp [Nat.toDigits, hl, List.asString]
  have := Atoi_digits (toString (n : Int)) l hs hne hall (by rw [hval]; exact hn)
  rw [this, hval]

end Strconv

namespace Api

/-- The cases named by the specification, on explicit parameter values. -/
theorem countSpec_examples :
    countSpec "" = 24 ∧ countSpec "abc" = 24 ∧ countSpec "1.5" = 24 ∧ countSpec "0" = 24 ∧
    countSpec "-3" = 24 ∧ countSpec "9223372036854775808" = 24 ∧
    countSpec "7" = 7 ∧ countSpec "100" = 100 ∧ countSpec "9223372036854775807" = 9223372036854775807 := by
  decide

end Api

/-- C6: list-entries hands to the host query the count `n` when the `count`
parameter is a decimal integer `n > 0` (in particular when it is the decimal
numeral of such an `n` in `int` range) and 24 in every other case; that count
is always positive; and the request is answered 400 only for a missing
`userId`, never because of `count`. -/
theorem Api.entries_count_default (env : Env) (c : Context) (st : State) :
    (∃ count : Int,
      (∀ n : Int, Strconv.Atoi (c.Query "count") = .ok n → 0 < n → count = n) ∧
      ((¬ ∃ n : Int, Strconv.Atoi (c.Query "count") = .ok n ∧ 0 < n) → count = 24) ∧
      (∀ n : Nat, 0 < n → n < 2 ^ 63 → c.Query "count" = toString (n : Int) → count = n) ∧
      0 < count ∧
      Api.GetNightscoutEntries env c st =
        if c.Query "userId" = "" then (⟨400, [("error", .str "userId is required")]⟩, st)
        else
          match Firebase.NewClient env with
          | .error _ => (Api.recovered, st)
          | .ok _ =>
            match Firebase.GetNightscoutConnection env st (c.Query "userId") with
            | (.error _, st1) =>
              (⟨500, [("error", .str "Failed to get connection details")]⟩, st1)
            | (.ok (url, apiKey), st1) =>
              match Nightscout.GetEntries env ⟨url, apiKey⟩ st1 count
                  (Api.dateSpec env (c.Query "from")) (Api.dateSpec env (c.Query "to")) with
              | (.error e, st2) =>
                (⟨500, [("error", .str "Failed to fetch entries"), ("details", .str e)]⟩, st2)
              | (.ok entries, st2) =>
                (⟨200, [("entries", .entries entries), ("count", .num entries.length)]⟩, st2)) ∧
    ((Api.GetNightscoutEntries env c st).1.status = 400 ↔ c.Query "userId" = "") := by
  refine ⟨⟨Api.countSpec (c.Query "count"), ?_, ?_, ?_, Api.countSpec_pos _,
    Api.GetNightscoutEntries_eq env c st⟩, Api.entries_400_iff env c st⟩
  · intro n hn hpos
    simp [Api.countSpec, hn, hpos]
  · intro hno
    unfold Api.countSpec
    cases hn : Strconv.Atoi (c.Query "count") with
    | error e => rfl
    | ok n =>
      have : ¬ 0 < n := fun hpos => hno ⟨n, hn, hpos⟩
      simp [this]
  · intro n hpos hlt hq
    have hpos2 : (0 : Int) < (n : Int) := by exact_mod_cast hpos
    simp [Api.countSpec, hq, Strconv.Atoi_repr n hlt, hpos2]

/-- C6 witness: with `count=abc` for the stored user `bob` the host is asked
for 24 entries. -/
theorem Api.entries_count_default_witness :
    (Api.GetNightscoutEntries Sample.env
        ⟨Sample.request "GET" "/api/nightscout/entries" "Bearer tokB"
          [("userId", "bob"), ("count", "abc")], []⟩
        ⟨Sample.bobStore, []⟩).2.trace =
      [.firestoreGet "bob",
       .httpDo "GET" "https://bob.example/api/v1/entries.json?count=24&token=bk"] := by
  obtain ⟨count, -, h24, -, -, heq⟩ := (Api.entries_count_default Sample.env
    ⟨Sample.request "GET" "/api/nightscout/entries" "Bearer tokB"
      [("userId", "bob"), ("count", "abc")], []⟩ ⟨Sample.bobStore, []⟩).1
  have hc : count = 24 := h24 (by
    rintro ⟨n, hn, -⟩
    have he : Strconv.Atoi "abc" = .error .syntaxErr := rfl
    rw [show (Context.Query ⟨Sample.request "GET" "/api/nightscout/entries" "Bearer tokB"
      [("userId", "bob"), ("count", "abc")], []⟩ "count") = "abc" from rfl, he] at hn
    cases hn)
  subst hc
  rw [heq]
  decide

/-! ## C7: how many entries come back -/

/-- C7 (refuted as stated): asked for one entry with no date bounds, a host
that answers with a JSON array of two objects makes `GetEntries` return two
entries, and list-entries answers 200 with both and `count` 2. -/
theorem Nightscout.getEntries_exceeds_count :
    (Nightscout.GetEntries Sample.env ⟨"https://bob.example", "bk"⟩ ⟨[], []⟩ 1
        Time.zero Time.zero).1 = .ok [Sample.zeroEntry, Sample.zeroEntry] ∧
    (Api.GetNightscoutEntries Sample.env
        ⟨Sample.request "GET" "/api/nightscout/entries" "Bearer tokB"
          [("userId", "bob"), ("count", "1")], []⟩
        ⟨Sample.bobStore, []⟩).1 =
      ⟨200, [("entries", .entries [Sample.zeroEntry, Sample.zeroEntry]), ("count", .num 2)]⟩ :=
  ⟨rfl, rfl⟩

/-- C7 (amended): with no date bounds `GetEntries` returns exactly the entries
that the body of the host's response decodes to, whatever the count; so it
returns at most `count` entries whenever that body holds at most `count`
entries. -/
theorem Nightscout.getEntries_returns_decoded (env : Env) (c : Nightscout.Client) (st : State)
    (count : Int) (resp : HttpResponse) (entries : List Models.GlucoseEntry)
    (hreq : (Nightscout.makeRequest env c st "GET"
      ("/api/v1/entries.json?count=" ++ toString count)).1 = .ok resp)
    (hdec : env.jsonDecode resp.Body = .ok entries) :
    (Nightscout.GetEntries env c st count Time.zero Time.zero).1 = .ok entries ∧
    ((entries.length : Int) ≤ count →
      ∀ es, (Nightscout.GetEntries env c st count Time.zero Time.zero).1 = .ok es →
        (es.length : Int) ≤ count) := by
  have hres : (Nightscout.GetEntries env c st count Time.zero Time.zero).1 = .ok entries := by
    rw [Nightscout.GetEntries_eq]
    have hz : Time.zero.IsZero = true := rfl
    simp only [hz, if_true, String.append_empty]
    have he : "/api/v1/entries.json" ++ "?count=" ++ toString count =
        "/api/v1/entries.json?count=" ++ toString count := by
      simp [String.append_assoc]
    rw [he]
    rcases hm : Nightscout.makeRequest env c st "GET"
      ("/api/v1/entries.json?count=" ++ toString count) with ⟨r, st1⟩
    rw [hm] at hreq
    simp only at hreq
    subst hreq
    simp [hdec]
  refine ⟨hres, ?_⟩
  intro hle es hes
  rw [hres] at hes
  cases hes
  exact hle

/-- C7 witness: the same host, asked for five entries, returns its two. -/
theorem Nightscout.getEntries_returns_decoded_witness :
    (Nightscout.GetEntries Sample.env ⟨"https://bob.example", "bk"⟩ ⟨[], []⟩ 5
        Time.zero Time.zero).1 = .ok [Sample.zeroEntry, Sample.zeroEntry] :=
  (Nightscout.getEntries_returns_decoded Sample.env ⟨"https://bob.example", "bk"⟩ ⟨[], []⟩ 5
    ⟨200, "[\x7b\x7d,\x7b\x7d]"⟩ [Sample.zeroEntry, Sample.zeroEntry] rfl rfl).1

/-! ## C8: malformed `from` and `to` -/

namespace Context

theorem withoutQuery_same (c : Context) (key : String) : (c.withoutQuery key).Query key = "" := by
  unfold withoutQuery Query
  simp only
  induction c.request.query with
  | nil => rfl
  | cons kv rest ih =>
    obtain ⟨k, v⟩ := kv
    by_cases h : k = key
    · simpa [List.filter_cons, h] using ih
    · have hb : (key == k) = false := by simpa using fun e => h e.symm
      have hne : (k != key) = true := by simpa using h
      rw [List.filter_cons]
      simp only [hne, if_true, List.lookup, hb]
      exact ih

theorem withoutQuery_other (c : Context) (key other : String) (h : other ≠ key) :
    (c.withoutQuery key).Query other = c.Query other := by
  unfold withoutQuery Query
  simp only
  induction c.request.query with
  | nil => rfl
  | cons kv rest ih =>
    obtain ⟨k, v⟩ := kv
    by_cases hk : k = key
    · have hb : (other == k) = false := by
        subst hk
        simpa using h
      have heq : (k != key) = false := by simpa using hk
      rw [List.filter_cons]
      simp only [heq, List.lookup, hb]
      exact ih
    · have hne : (k != key) = true := by simpa using hk
      rw [List.filter_cons]
      simp only [hne, if_true, List.lookup]
      cases other == k
      · exact ih
      · rfl

end Context

namespace Api

theorem dateSpec_malformed (env : Env) (v : String) (e : String)
    (h : env.timeParse v = .error e) : dateSpec env v = Time.zero := by
  unfold dateSpec
  by_cases hv : v = "" <;> simp [hv, h]

theorem dateSpec_absent (env : Env) : dateSpec env "" = Time.zero := by
  simp [dateSpec]

end Api

/-- C8: in list-entries a `from` (likewise a `to`) value that does not parse
as RFC 3339 is treated as absent: the handler gives the same response and
reaches the same state (same store, same store and host calls in the trace) as
for the request without that parameter; and a 400 is answered only for a
missing `userId`. -/
theorem Api.malformed_date_ignored (env : Env) (c : Context) (st : State) :
    ((∃ e, env.timeParse (c.Query "from") = .error e) →
      Api.GetNightscoutEntries env c st =
        Api.GetNightscoutEntries env (c.withoutQuery "from") st) ∧
    ((∃ e, env.timeParse (c.Query "to") = .error e) →
      Api.GetNightscoutEntries env c st =
        Api.GetNightscoutEntries env (c.withoutQuery "to") st) ∧
    ((Api.GetNightscoutEntries env c st).1.status = 400 ↔ c.Query "userId" = "") := by
  refine ⟨?_, ?_, Api.entries_400_iff env c st⟩
  · rintro ⟨e, he⟩
    rw [Api.GetNightscoutEntries_eq, Api.GetNightscoutEntries_eq,
      Context.withoutQuery_same, Context.withoutQuery_other c "from" "userId" (by decide),
      Context.withoutQuery_other c "from" "count" (by decide),
      Context.withoutQuery_other c "from" "to" (by decide),
      Api.dateSpec_malformed env _ e he, Api.dateSpec_absent]
  · rintro ⟨e, he⟩
    rw [Api.GetNightscoutEntries_eq, Api.GetNightscoutEntries_eq,
      Context.withoutQuery_same, Context.withoutQuery_other c "to" "userId" (by decide),
      Context.withoutQuery_other c "to" "count" (by decide),
      Context.withoutQuery_other c "to" "from" (by decide),
      Api.dateSpec_malformed env _ e he, Api.dateSpec_absent]

/-- C8 witness: `from=yesterday` for the stored user `bob` leads to the host
query without a lower bound and to the response of the request without
`from`. -/
theorem Api.malformed_date_ignored_witness :
    Api.GetNightscoutEntries Sample.env
        ⟨Sample.request "GET" "/api/nightscout/entries" "Bearer tokB"
          [("userId", "bob"), ("from", "yesterday")], []⟩ ⟨Sample.bobStore, []⟩ =
      Api.GetNightscoutEntries Sample.env
        (Context.withoutQuery ⟨Sample.request "GET" "/api/nightscout/entries" "Bearer tokB"
          [("userId", "bob"), ("from", "yesterday")], []⟩ "from") ⟨Sample.bobStore, []⟩ :=
  (Api.malformed_date_ignored Sample.env
    ⟨Sample.request "GET" "/api/nightscout/entries" "Bearer tokB"
      [("userId", "bob"), ("from", "yesterday")], []⟩ ⟨Sample.bobStore, []⟩).1
    ⟨"cannot parse", rfl⟩

/-! ## C9: disconnecting twice -/

namespace Api

/-- Disconnect for a user without a stored connection: the response does not
depend on the state, and the store is left as it was. -/
theorem disconnect_absent (env : Env) (c : Context) (st : State)
    (h : Firestore.get st.store (c.Query "userId") = none) :
    (DisconnectNightscout env c st).1 =
      (if c.Query "userId" = "" then ⟨400, [("error", .str "userId is required")]⟩
       else
         match Firebase.NewClient env with
         | .error _ => recovered
         | .ok _ => ⟨500, [("error", .str "Failed to get connection details")]⟩) ∧
    (DisconnectNightscout env c st).2.store = st.store := by
  unfold DisconnectNightscout
  by_cases hu : c.Query "userId" = ""
  · simp [hu]
  · simp only [hu, if_false]
    cases Firebase.NewClient env with
    | error e => simp
    | ok u =>
      simp only [Firebase.GetNightscoutConnection]
      cases env.firestoreClient .get with
      | some e => simp
      | none =>
        cases env.firestoreOp .get with
        | some e => simp [State.record]
        | none => simp [State.record, h]

/-- Disconnect on a reachable store leaves no connection of the user. -/
theorem disconnect_clears (env : Env) (c : Context) (st : State)
    (hu : c.Query "userId" ≠ "") (hn : env.newApp = none)
    (hcd : env.firestoreClient .delete = none) (hod : env.firestoreOp .delete = none)
    (hcg : env.firestoreClient .get = none) (hog : env.firestoreOp .get = none) :
    Firestore.get (DisconnectNightscout env c st).2.store (c.Query "userId") = none := by
  unfold DisconnectNightscout
  simp only [hu, if_false]
  simp only [Firebase.NewClient, hn, Firebase.GetNightscoutConnection, hcg, hog, State.record]
  cases hg : Firestore.get st.store (c.Query "userId") with
  | none => simp [hg]
  | some d =>
    simp [hg, Firebase.DeleteNightscoutConnection, hcd, hod, State.record,
      Firestore.get_delete]

end Api

/-- C9 (refuted as stated): `bob` has a connection and the store cannot be
reached for the delete of the first disconnect, which is answered 500 and
leaves the connection; the second disconnect is then answered 200 and removes
it, whereas a disconnect of a user without a connection is answered 500
`Failed to get connection details` and changes nothing. -/
theorem Api.disconnect_after_failed_delete :
    (Api.DisconnectNightscout Sample.envDeleteDown
        ⟨Sample.request "DELETE" "/api/nightscout/disconnect" "Bearer tokB" [("userId", "bob")], []⟩
        ⟨Sample.bobStore, []⟩) =
      (⟨500, [("error", .str "Failed to disconnect from Nightscout")]⟩,
       ⟨Sample.bobStore, [.firestoreGet "bob", .firestoreDelete "bob"]⟩) ∧
    (Api.DisconnectNightscout Sample.env
        ⟨Sample.request "DELETE" "/api/nightscout/disconnect" "Bearer tokB" [("userId", "bob")], []⟩
        (Api.DisconnectNightscout Sample.envDeleteDown
          ⟨Sample.request "DELETE" "/api/nightscout/disconnect" "Bearer tokB" [("userId", "bob")], []⟩
          ⟨Sample.bobStore, []⟩).2).1 =
      ⟨200, [("message", .str "Successfully disconnected from Nightscout")]⟩ ∧
    (Api.DisconnectNightscout Sample.env
        ⟨Sample.request "DELETE" "/api/nightscout/disconnect" "Bearer tokB" [("userId", "bob")], []⟩
        (Api.DisconnectNightscout Sample.envDeleteDown
          ⟨Sample.request "DELETE" "/api/nightscout/disconnect" "Bearer tokB" [("userId", "bob")], []⟩
          ⟨Sample.bobStore, []⟩).2).2.store = [] ∧
    (Api.DisconnectNightscout Sample.env
        ⟨Sample.request "DELETE" "/api/nightscout/disconnect" "Bearer tokB" [("userId", "bob")], []⟩
        ⟨[], []⟩).1 =
      ⟨500, [("error", .str "Failed to get connection details")]⟩ := by
  decide

/-- C9 (amended): when the first of two consecutive disconnects of a user is
not cut short by a store failure, the second one, whatever the store does
during it, gives the response that a disconnect gives for a user who never had
a connection, and like that one leaves the store exactly as it found it. -/
theorem Api.disconnect_twice (env1 env2 : Env) (c : Context) (st st0 : State)
    (hreach : env1.newApp = none ∧
      env1.firestoreClient .get = none ∧ env1.firestoreOp .get = none ∧
      env1.firestoreClient .delete = none ∧ env1.firestoreOp .delete = none)
    (hnever : Firestore.get st0.store (c.Query "userId") = none) :
    (Api.DisconnectNightscout env2 c (Api.DisconnectNightscout env1 c st).2).1 =
      (Api.DisconnectNightscout env2 c st0).1 ∧
    (Api.DisconnectNightscout env2 c (Api.DisconnectNightscout env1 c st).2).2.store =
      (Api.DisconnectNightscout env1 c st).2.store ∧
    (Api.DisconnectNightscout env2 c st0).2.store = st0.store := by
  obtain ⟨hn, hcg, hog, hcd, hod⟩ := hreach
  have h0 := Api.disconnect_absent env2 c st0 hnever
  by_cases hu : c.Query "userId" = ""
  · have e1 : ∀ (env : Env) (s : State), Api.DisconnectNightscout env c s =
        (⟨400, [("error", .str "userId is required")]⟩, s) := by
      intro env s
      simp [Api.DisconnectNightscout, hu]
    rw [e1 env1 st, e1 env2 st, e1 env2 st0]
    exact ⟨rfl, rfl, rfl⟩
  · have h1 := Api.disconnect_absent env2 c (Api.DisconnectNightscout env1 c st).2
      (Api.disconnect_clears env1 c st hu hn hcd hod hcg hog)
    exact ⟨h1.1.trans h0.1.symm, h1.2, h0.2⟩

/-- C9 witness: `bob` is disconnected twice; the second call is compared with a
disconnect of `bob` on an empty store. -/
theorem Api.disconnect_twice_witness :
    (Api.DisconnectNightscout Sample.env
        ⟨Sample.request "DELETE" "/api/nightscout/disconnect" "Bearer tokB" [("userId", "bob")], []⟩
        (Api.DisconnectNightscout Sample.env
          ⟨Sample.request "DELETE" "/api/nightscout/disconnect" "Bearer tokB" [("userId", "bob")], []⟩
          ⟨Sample.bobStore, []⟩).2).1 =
      (Api.DisconnectNightscout Sample.env
        ⟨Sample.request "DELETE" "/api/nightscout/disconnect" "Bearer tokB" [("userId", "bob")], []⟩
        ⟨[], []⟩).1 :=
  (Api.disconnect_twice Sample.env Sample.env
    ⟨Sample.request "DELETE" "/api/nightscout/disconnect" "Bearer tokB" [("userId", "bob")], []⟩
    ⟨Sample.bobStore, []⟩ ⟨[], []⟩ ⟨rfl, rfl, rfl, rfl, rfl⟩ rfl).1

/-! ## C10: the authenticated identity is not consulted -/

namespace Api

/-- No handler reads anything of the context but the query and the body. -/
theorem call_congr (env : Env) (h : HandlerFunc) (c c2 : Context) (st : State)
    (hq : c.request.query = c2.request.query) (hb : c.request.body = c2.request.body) :
    call env h c st = call env h c2 st := by
  cases h <;>
    simp only [call, HealthCheck, ConnectNightscout, VerifyNightscout, GetNightscoutEntries,
      DisconnectNightscout, ShouldBindJSON, Context.Query, hq, hb]

/-- A well-formed header with a token the identity provider accepts lets the
request through unchanged. -/
theorem firebase_accept (s : Auth.Service) (req : Request)
    (h : ∃ tok token, req.authorization = "Bearer " ++ tok ∧ ' ' ∉ tok.data ∧
      s.VerifyIDToken tok = .ok token) :
    ∃ c1, Auth.FirebaseAuthMiddleware s ⟨req, []⟩ = .next c1 ∧ c1.request = req := by
  obtain ⟨tok, token, hh, hs, hv⟩ := h
  rw [Auth.firebase_bearer s ⟨req, []⟩ tok hh hs]
  simp only [Auth.VerifyFirebaseToken, hv]
  cases token.Claims.lookup "email" with
  | none => exact ⟨_, rfl, rfl⟩
  | some email => exact ⟨_, rfl, rfl⟩

/-- What the router does on the disconnect route. -/
theorem serve_disconnect (s : Auth.Service) (env : Env) (req : Request) (st : State)
    (hm : req.method = "DELETE") (hp : req.path = "/api/nightscout/disconnect") :
    ServeHTTP s env req st =
      match Auth.FirebaseAuthMiddleware s ⟨req, []⟩ with
      | .abort resp => (resp, st)
      | .next c1 =>
        DisconnectNightscout env c1 (st.record (.handler .DisconnectNightscout)) := by
  simp [ServeHTTP, SetupRoutes, List.find?, hm, hp, call]

/-- Disconnect of a stored user on a reachable store answers 200. -/
theorem disconnect_stored (env : Env) (c : Context) (st : State) (d : Firestore.Doc)
    (hu : c.Query "userId" ≠ "") (hn : env.newApp = none)
    (hcd : env.firestoreClient .delete = none) (hod : env.firestoreOp .delete = none)
    (hcg : env.firestoreClient .get = none) (hog : env.firestoreOp .get = none)
    (hd : Firestore.get st.store (c.Query "userId") = some d) :
    (DisconnectNightscout env c st).1.status = 200 := by
  unfold DisconnectNightscout
  simp [hu, Firebase.NewClient, hn, Firebase.GetNightscoutConnection, hcg, hog, State.record,
    hd, Firebase.DeleteNightscoutConnection, hcd, hod]

end Api

/-- C10: on the protected routes the response and the resulting state depend
on the query and body only, not on who the token belongs to: two requests
that differ only in their accepted bearer tokens are served identically. In
particular a disconnect naming a stored user in `userId`, sent with any
accepted token, is answered 200 and removes that user's connection. -/
theorem Api.identity_not_consulted (s : Auth.Service) (env : Env) (st : State) :
    (∀ req1 req2 : Request,
      ((req1.method = "POST" ∧ req1.path = "/api/nightscout/connect") ∨
        (req1.method = "GET" ∧ req1.path = "/api/nightscout/verify") ∨
        (req1.method = "GET" ∧ req1.path = "/api/nightscout/entries") ∨
        (req1.method = "DELETE" ∧ req1.path = "/api/nightscout/disconnect")) →
      req2.method = req1.method → req2.path = req1.path →
      req2.query = req1.query → req2.body = req1.body →
      (∃ tok token, req1.authorization = "Bearer " ++ tok ∧ ' ' ∉ tok.data ∧
        s.VerifyIDToken tok = .ok token) →
      (∃ tok token, req2.authorization = "Bearer " ++ tok ∧ ' ' ∉ tok.data ∧
        s.VerifyIDToken tok = .ok token) →
      Api.ServeHTTP s env req1 st = Api.ServeHTTP s env req2 st) ∧
    (∀ (req : Request) (victim : String) (d : Firestore.Doc),
      req.method = "DELETE" → req.path = "/api/nightscout/disconnect" →
      req.query.lookup "userId" = some victim → victim ≠ "" →
      (∃ tok token, req.authorization = "Bearer " ++ tok ∧ ' ' ∉ tok.data ∧
        s.VerifyIDToken tok = .ok token ∧ token.UID ≠ victim) →
      (env.newApp = none ∧
        env.firestoreClient .get = none ∧ env.firestoreOp .get = none ∧
        env.firestoreClient .delete = none ∧ env.firestoreOp .delete = none) →
      Firestore.get st.store victim = some d →
      (Api.ServeHTTP s env req st).1.status = 200 ∧
      Firestore.get (Api.ServeHTTP s env req st).2.store victim = none) := by
  constructor
  · intro req1 req2 hroute hm hp hq hb h1 h2
    obtain ⟨c1, hc1, hr1⟩ := Api.firebase_accept s req1 h1
    obtain ⟨c2, hc2, hr2⟩ := Api.firebase_accept s req2 h2
    have hcall : ∀ h : HandlerFunc, ∀ st1 : State,
        Api.call env h c1 st1 = Api.call env h c2 st1 := by
      intro h st1
      exact Api.call_congr env h c1 c2 st1 (by rw [hr1, hr2, hq]) (by rw [hr1, hr2, hb])
    rcases hroute with ⟨hm1, hp1⟩ | ⟨hm1, hp1⟩ | ⟨hm1, hp1⟩ | ⟨hm1, hp1⟩ <;>
      simp [Api.ServeHTTP, Api.SetupRoutes, List.find?, hm, hp, hm1, hp1, hc1, hc2, hcall]
  · intro req victim d hm hp hv hne hacc hreach hd
    obtain ⟨hn, hcg, hog, hcd, hod⟩ := hreach
    obtain ⟨c1, hc1, hr1⟩ := Api.firebase_accept s req (by
      obtain ⟨tok, token, h1, h2, h3, -⟩ := hacc
      exact ⟨tok, token, h1, h2, h3⟩)
    have hquery : c1.Query "userId" = victim := by
      simp [Context.Query, hr1, hv]
    rw [Api.serve_disconnect s env req st hm hp, hc1]
    simp only
    constructor
    · exact Api.disconnect_stored env c1 _ d (by rw [hquery]; exact hne) hn hcd hod hcg hog
        (by rw [hquery]; simpa [State.record] using hd)
    · have := Api.disconnect_clears env c1 (st.record (.handler .DisconnectNightscout))
        (by rw [hquery]; exact hne) hn hcd hod hcg hog
      rw [hquery] at this
      exact this

/-- C10 witness: the disconnect of `bob` sent with the token of `alice` is
served exactly as the one sent with the token of `bob`: it is answered 200 and
the connection of `bob` is gone. -/
theorem Api.identity_not_consulted_witness :
    Api.ServeHTTP Sample.service Sample.env
        (Sample.request "DELETE" "/api/nightscout/disconnect" "Bearer tokA" [("userId", "bob")])
        ⟨Sample.bobStore, []⟩ =
      Api.ServeHTTP Sample.service Sample.env
        (Sample.request "DELETE" "/api/nightscout/disconnect" "Bearer tokB" [("userId", "bob")])
        ⟨Sample.bobStore, []⟩ ∧
    (Api.ServeHTTP Sample.service Sample.env
        (Sample.request "DELETE" "/api/nightscout/disconnect" "Bearer tokA" [("userId", "bob")])
        ⟨Sample.bobStore, []⟩).1.status = 200 ∧
    (Api.ServeHTTP Sample.service Sample.env
        (Sample.request "DELETE" "/api/nightscout/disconnect" "Bearer tokA" [("userId", "bob")])
        ⟨Sample.bobStore, []⟩).2.store = [] :=
  ⟨(Api.identity_not_consulted Sample.service Sample.env ⟨Sample.bobStore, []⟩).1
      (Sample.request "DELETE" "/api/nightscout/disconnect" "Bearer tokA" [("userId", "bob")])
      (Sample.request "DELETE" "/api/nightscout/disconnect" "Bearer tokB" [("userId", "bob")])
      (Or.inr (Or.inr (Or.inr ⟨rfl, rfl⟩))) rfl rfl rfl rfl
      ⟨"tokA", ⟨"alice", [("email", "alice@example.com")]⟩, by decide, by decide, rfl⟩
      ⟨"tokB", ⟨"bob", []⟩, by decide, by decide, rfl⟩,
    by decide, by decide⟩

/-! ## C11: the HTTP status of the host's response -/

namespace Nightscout

/-- The function `Verify` in terms of the outcome of its one `makeRequest`. -/
theorem Verify_of_response (env : Env) (c : Client) (st st1 : State) (resp : HttpResponse)
    (h : makeRequest env c st "GET" "/api/v1/status.json" = (.ok resp, st1)) :
    Verify env c st =
      (if resp.StatusCode = 200 then none
       else some ("invalid Nightscout credentials or URL: status " ++ toString resp.StatusCode),
       st1) := by
  unfold Verify
  simp only [Constants.NightscoutAPIStatusEndpoint, h]
  by_cases hs : resp.StatusCode = 200 <;> simp [hs]

end Nightscout

/-- C11: whatever status code the host's response carries, when its body
decodes to entries `GetEntries` returns those entries without error and
list-entries answers 200 with them and their number; `GetEntries` returns an
error only when the request itself failed or the body does not decode; whereas
`Verify` returns an error for every response whose status is not 200 and none
for status 200. -/
theorem Nightscout.getEntries_ignores_status (env : Env) (st : State)
    (count : Int) (dateFrom dateTo : Time) :
    (∀ (c : Nightscout.Client) (resp : HttpResponse) (st1 : State)
        (entries : List Models.GlucoseEntry),
      Nightscout.makeRequest env c st "GET"
          ("/api/v1/entries.json" ++ "?count=" ++ toString count ++
            (if dateFrom.IsZero then "" else "&find[dateString][$gte]=" ++ env.timeFormat dateFrom) ++
            (if dateTo.IsZero then "" else "&find[dateString][$lte]=" ++ env.timeFormat dateTo)) =
        (.ok resp, st1) →
      env.jsonDecode resp.Body = .ok entries →
      Nightscout.GetEntries env c st count dateFrom dateTo = (.ok entries, st1)) ∧
    (∀ (c : Nightscout.Client) (e : String),
      (Nightscout.GetEntries env c st count dateFrom dateTo).1 = .error e →
      (∃ e1, (Nightscout.makeRequest env c st "GET"
          ("/api/v1/entries.json" ++ "?count=" ++ toString count ++
            (if dateFrom.IsZero then "" else "&find[dateString][$gte]=" ++ env.timeFormat dateFrom) ++
            (if dateTo.IsZero then "" else "&find[dateString][$lte]=" ++ env.timeFormat dateTo))).1 =
        .error e1) ∨
      (∃ resp e2, (Nightscout.makeRequest env c st "GET"
          ("/api/v1/entries.json" ++ "?count=" ++ toString count ++
            (if dateFrom.IsZero then "" else "&find[dateString][$gte]=" ++ env.timeFormat dateFrom) ++
            (if dateTo.IsZero then "" else "&find[dateString][$lte]=" ++ env.timeFormat dateTo))).1 =
          .ok resp ∧ env.jsonDecode resp.Body = .error e2)) ∧
    (∀ (ctx : Context) (url apiKey : String) (st1 st2 : State) (resp : HttpResponse)
        (entries : List Models.GlucoseEntry),
      ctx.Query "userId" ≠ "" → env.newApp = none →
      Firebase.GetNightscoutConnection env st (ctx.Query "userId") = (.ok (url, apiKey), st1) →
      Nightscout.makeRequest env ⟨url, apiKey⟩ st1 "GET"
          ("/api/v1/entries.json" ++ "?count=" ++ toString (Api.countSpec (ctx.Query "count")) ++
            (if (Api.dateSpec env (ctx.Query "from")).IsZero then ""
             else "&find[dateString][$gte]=" ++ env.timeFormat (Api.dateSpec env (ctx.Query "from"))) ++
            (if (Api.dateSpec env (ctx.Query "to")).IsZero then ""
             else "&find[dateString][$lte]=" ++ env.timeFormat (Api.dateSpec env (ctx.Query "to")))) =
        (.ok resp, st2) →
      env.jsonDecode resp.Body = .ok entries →
      Api.GetNightscoutEntries env ctx st =
        (⟨200, [("entries", .entries entries), ("count", .num entries.length)]⟩, st2)) ∧
    (∀ (c : Nightscout.Client) (resp : HttpResponse) (st1 : State),
      Nightscout.makeRequest env c st "GET" "/api/v1/status.json" = (.ok resp, st1) →
      (resp.StatusCode ≠ 200 →
        (Nightscout.Verify env c st).1 =
          some ("invalid Nightscout credentials or URL: status " ++ toString resp.StatusCode)) ∧
      (resp.StatusCode = 200 → (Nightscout.Verify env c st).1 = none)) := by
  refine ⟨?_, ?_, ?_, ?_⟩
  · intro c resp st1 entries hreq hdec
    rw [Nightscout.GetEntries_eq, hreq]
    simp [hdec]
  · intro c e herr
    rw [Nightscout.GetEntries_eq] at herr
    rcases hm : Nightscout.makeRequest env c st "GET"
          ("/api/v1/entries.json" ++ "?count=" ++ toString count ++
            (if dateFrom.IsZero then "" else "&find[dateString][$gte]=" ++ env.timeFormat dateFrom) ++
            (if dateTo.IsZero then "" else "&find[dateString][$lte]=" ++ env.timeFormat dateTo))
      with ⟨r, st1⟩
    cases r with
    | error e1 => exact Or.inl ⟨e1, rfl⟩
    | ok resp =>
      right
      rw [hm] at herr
      cases hd : env.jsonDecode resp.Body with
      | error e2 => exact ⟨resp, e2, rfl, hd⟩
      | ok entries => simp [hd] at herr
  · intro ctx url apiKey st1 st2 resp entries hu hn hget hreq hdec
    rw [Api.GetNightscoutEntries_eq]
    simp only [hu, if_false, Firebase.NewClient, hn, hget]
    rw [Nightscout.GetEntries_eq, hreq]
    simp [hdec]
  · intro c resp st1 hreq
    rw [Nightscout.Verify_of_response env c st st1 resp hreq]
    constructor
    · intro hs
      simp [hs]
    · intro hs
      simp [hs]

/-- C11 witness: a host that answers status 500 with a JSON array of two
objects: `GetEntries` returns the two entries, list-entries for the stored
user `bob` answers 200 with them, and `Verify` reports the status. -/
theorem Nightscout.getEntries_ignores_status_witness :
    Nightscout.GetEntries (Sample.envStatus 500) ⟨"https://bob.example", "bk"⟩ ⟨[], []⟩ 24
        Time.zero Time.zero =
      (.ok [Sample.zeroEntry, Sample.zeroEntry],
       ⟨[], [.httpDo "GET" "https://bob.example/api/v1/entries.json?count=24&token=bk"]⟩) ∧
    (Api.GetNightscoutEntries (Sample.envStatus 500)
        ⟨Sample.request "GET" "/api/nightscout/entries" "Bearer tokB" [("userId", "bob")], []⟩
        ⟨Sample.bobStore, []⟩).1 =
      ⟨200, [("entries", .entries [Sample.zeroEntry, Sample.zeroEntry]), ("count", .num 2)]⟩ ∧
    (Nightscout.Verify (Sample.envStatus 500) ⟨"https://bob.example", "bk"⟩ ⟨[], []⟩).1 =
      some "invalid Nightscout credentials or URL: status 500" :=
  ⟨(Nightscout.getEntries_ignores_status (Sample.envStatus 500) ⟨[], []⟩ 24 Time.zero Time.zero).1
      ⟨"https://bob.example", "bk"⟩ ⟨500, "[\x7b\x7d,\x7b\x7d]"⟩
      ⟨[], [.httpDo "GET" "https://bob.example/api/v1/entries.json?count=24&token=bk"]⟩
      [Sample.zeroEntry, Sample.zeroEntry] rfl rfl,
    rfl,
    ((Nightscout.getEntries_ignores_status (Sample.envStatus 500) ⟨[], []⟩ 24 Time.zero
      Time.zero).2.2.2 ⟨"https://bob.example", "bk"⟩ ⟨500, "[\x7b\x7d,\x7b\x7d]"⟩
      ⟨[], [.httpDo "GET" "https://bob.example/api/v1/status.json?token=bk"]⟩ rfl).1 (by decide)⟩
